import Mathlib

/-!
Verification of the GROBID TEI-XML reference extraction logic of
PaperNavigator (src/extractors/reference_parser.py).

The document tree produced by the XML parse is modelled by `XmlNode`;
a whole document (the "soup") is a list of top-level nodes.  The
element/attribute search primitives mirror the BeautifulSoup calls the
source uses: `find` / `find_all` search the descendants of a node in
document (pre-)order, attribute filters require an exact, case-sensitive
match, and `get` returns an attribute with a default.  All string
operations are modelled on explicit character lists so that every
definition evaluates by kernel reduction.
-/

/-- A node of the parsed XML document tree: an element with a tag name,
an attribute list and children, or a text node. -/
inductive XmlNode where
  | text (s : String)
  | elem (tag : String) (attrs : List (String × String)) (children : List XmlNode)

/-- ASCII whitespace, the characters stripped by Python str.strip on the
inputs modelled here. -/
def isWs (c : Char) : Bool := c = ' ' || c = '\t' || c = '\n' || c = '\r'

/-- Python str.strip(): remove leading and trailing whitespace. -/
def trimStr (s : String) : String :=
  String.mk (((s.data.dropWhile isWs).reverse.dropWhile isWs).reverse)

/-- Python s.split(sep)[0] for a one-character separator: the characters
before the first hyphen (the whole string if none occurs). -/
def beforeFirstHyphen (s : String) : String :=
  String.mk (s.data.takeWhile (fun c => ¬ c = '-'))

/-- Python s.startswith(p). -/
def strStartsWith (s p : String) : Bool := p.data.isPrefixOf s.data

/-- Python sep.join(l). -/
def joinSep (sep : String) : List String → String
  | [] => ""
  | [x] => x
  | x :: y :: xs => x ++ sep ++ joinSep sep (y :: xs)

/-- Concatenation of a list of strings with no separator. -/
def joinAll : List String → String
  | [] => ""
  | x :: xs => x ++ joinAll xs

/-- Attribute lookup in an attribute list (Python elem.get(k)). -/
def lookupAttr (attrs : List (String × String)) (k : String) : Option String :=
  (attrs.find? (fun p => p.1 == k)).map (fun p => p.2)

/-- Attribute of a node; text nodes have none. -/
def attrOf : XmlNode → String → Option String
  | XmlNode.elem _ attrs _, k => lookupAttr attrs k
  | XmlNode.text _, _ => none

/-- Python elem.get(k, d): attribute with a default. -/
def attrD (n : XmlNode) (k d : String) : String := (attrOf n k).getD d

mutual

/-- The node itself followed by its descendants, in document order. -/
def nodeWithDesc : XmlNode → List XmlNode
  | XmlNode.text s => [XmlNode.text s]
  | XmlNode.elem t a cs => XmlNode.elem t a cs :: descList cs

/-- All nodes of a forest in document order: each node precedes its
descendants, and a subtree precedes its following siblings.  This is the
order in which BeautifulSoup find_all reports matches. -/
def descList : List XmlNode → List XmlNode
  | [] => []
  | n :: rest => nodeWithDesc n ++ descList rest

end

/-- Descendants of a single node (the node itself excluded), the search
space of BeautifulSoup elem.find / elem.find_all. -/
def elemDesc : XmlNode → List XmlNode
  | XmlNode.text _ => []
  | XmlNode.elem _ _ cs => descList cs

mutual

/-- Strings of a node's subtree (a text node yields its own string), in
document order. -/
def elemTexts : XmlNode → List String
  | XmlNode.text s => [s]
  | XmlNode.elem _ _ cs => textsList cs

/-- All descendant strings of a forest, in document order. -/
def textsList : List XmlNode → List String
  | [] => []
  | n :: rest => elemTexts n ++ textsList rest

end

/-- BeautifulSoup elem.text: every descendant string concatenated. -/
def nodeText (n : XmlNode) : String := joinAll (elemTexts n)

/-- BeautifulSoup elem.get_text(strip=True): each descendant string is
stripped, strings that are empty after stripping are skipped, and the
rest are concatenated with no separator. -/
def getTextStrip (n : XmlNode) : String :=
  joinAll (((elemTexts n).map trimStr).filter (fun s => ¬ s = ""))

/-- Does the node match a tag name (elements only)? -/
def isTag (t : String) : XmlNode → Bool
  | XmlNode.elem t2 _ _ => t2 == t
  | XmlNode.text _ => false

/-- Does the node carry attribute k with exact value v? -/
def hasAttrVal (k v : String) (n : XmlNode) : Bool := attrOf n k == some v

/-- Tag-plus-attributes filter of BeautifulSoup find(tag, attrs): the
tag name matches and every required attribute is present with exactly
the required value (case-sensitive). -/
def matchTagAttrs (t : String) (req : List (String × String)) (n : XmlNode) : Bool :=
  isTag t n && req.all (fun p => hasAttrVal p.1 p.2 n)

/-- soup.find_all(...) over a whole document. -/
def findAllDoc (p : XmlNode → Bool) (doc : List XmlNode) : List XmlNode :=
  (descList doc).filter p

/-- soup.find(...): first match in document order, if any. -/
def findDoc (p : XmlNode → Bool) (doc : List XmlNode) : Option XmlNode :=
  (findAllDoc p doc).head?

/-- elem.find_all(...): all matching descendants of a node. -/
def findAllIn (p : XmlNode → Bool) (n : XmlNode) : List XmlNode :=
  (elemDesc n).filter p

/-- elem.find(...): first matching descendant of a node, if any. -/
def findIn (p : XmlNode → Bool) (n : XmlNode) : Option XmlNode :=
  (findAllIn p n).head?

/-- Direct children of a node, the search space of
find_all(..., recursive=False). -/
def directChildren : XmlNode → List XmlNode
  | XmlNode.text _ => []
  | XmlNode.elem _ _ cs => cs

example :
    descList [XmlNode.elem "a" [] [XmlNode.text "x", XmlNode.elem "b" [] []]]
      = [XmlNode.elem "a" [] [XmlNode.text "x", XmlNode.elem "b" [] []],
         XmlNode.text "x", XmlNode.elem "b" [] []] := rfl

example : trimStr "  ab c  " = "ab c" := rfl

example : beforeFirstHyphen "2020-05-01" = "2020" := rfl

example : beforeFirstHyphen "" = "" := rfl

example : strStartsWith "b12" "b" = true := rfl

/-- An author record as built by parse_author: forename text, surname
text, and the derived full name. -/
structure Person where
  forename : String
  surname : String
  full_name : String
deriving Repr, DecidableEq

/-- Forename text of a persName element: the text of every forename
descendant joined by single spaces, the empty string when there are
none (reference_parser.py lines 19-20). -/
def forenameTextOf (persName : XmlNode) : String :=
  let forenames := findAllIn (isTag "forename") persName
  if forenames.isEmpty then "" else joinSep " " (forenames.map nodeText)

/-- Surname text of a persName element: the text of its first surname
descendant, the empty string when there is none (lines 23-24). -/
def surnameTextOf (persName : XmlNode) : String :=
  match findIn (isTag "surname") persName with
  | some s => nodeText s
  | none => ""

/-- parse_author (reference_parser.py lines 12-33): locate the persName
descendant; with none, or with both name parts equal to the empty
string, no author is produced; otherwise the Person carries the raw
forename and surname texts and full_name is their space-joined
concatenation, stripped. -/
def parse_author (author_elem : XmlNode) : Option Person :=
  match findIn (isTag "persName") author_elem with
  | none => none
  | some persName =>
      let forename_text := forenameTextOf persName
      let surname_text := surnameTextOf persName
      if forename_text = "" ∧ surname_text = "" then none
      else some ⟨forename_text, surname_text,
                 trimStr (forename_text ++ " " ++ surname_text)⟩

/-- The main-paper record assembled by parse_grobid_xml. -/
structure MainPaper where
  title : String
  authors : List Person
  year : Option String
  arxiv : Option String
  doi : Option String
  abstract : Option String
deriving Repr, DecidableEq

/-- Main-paper title (lines 46-47): text of the first title element
with level "a" and type "main" anywhere in the document, stripped;
the sentinel "Unknown" when there is none. -/
def mainTitle (doc : List XmlNode) : String :=
  match findDoc (matchTagAttrs "title" [("level", "a"), ("type", "main")]) doc with
  | some e => trimStr (nodeText e)
  | none => "Unknown"

/-- Main-paper authors (lines 50-57): direct-child author elements of
the first sourceDesc element, each run through parse_author, authors
that yield no Person skipped. -/
def mainAuthors (doc : List XmlNode) : List Person :=
  match findDoc (isTag "sourceDesc") doc with
  | some sd => ((directChildren sd).filter (isTag "author")).filterMap parse_author
  | none => []

/-- Main-paper year (lines 60-61): with a first date element of type
"published" anywhere in the document, the part of its "when" attribute
(defaulted to the empty string) before the first hyphen; absent only
when no such date element exists. -/
def mainYear (doc : List XmlNode) : Option String :=
  match findDoc (matchTagAttrs "date" [("type", "published")]) doc with
  | some d => some (beforeFirstHyphen (attrD d "when" ""))
  | none => none

/-- Main-paper arXiv id (lines 64-65): text of the first idno element
of type "arXiv" anywhere in the document, absent when none exists. -/
def mainArxiv (doc : List XmlNode) : Option String :=
  (findDoc (matchTagAttrs "idno" [("type", "arXiv")]) doc).map nodeText

/-- Main-paper DOI (lines 68-69): text of the first idno element of
type "DOI" anywhere in the document, absent when none exists. -/
def mainDoi (doc : List XmlNode) : Option String :=
  (findDoc (matchTagAttrs "idno" [("type", "DOI")]) doc).map nodeText

/-- Main-paper abstract (lines 72-73): get_text(strip=True) of the
first abstract element, absent when none exists. -/
def mainAbstract (doc : List XmlNode) : Option String :=
  (findDoc (isTag "abstract") doc).map getTextStrip

/-- The main-paper record (lines 43-73). -/
def parse_main (doc : List XmlNode) : MainPaper :=
  ⟨mainTitle doc, mainAuthors doc, mainYear doc, mainArxiv doc,
   mainDoi doc, mainAbstract doc⟩

/-- A reference record as assembled for one accepted biblStruct.  The
last three fields are the placeholders the source always leaves empty. -/
structure Reference where
  title : String
  authors : List Person
  year : Option String
  doi : Option String
  arxiv : Option String
  venue : Option String
  pages : Option String
  volume : Option String
  grobid_id : String
  paper_id : Option String
  citation_count : Option Nat
  full_abstract : Option String
deriving Repr, DecidableEq

/-- Reference title (lines 86-90): text of the first title descendant
with level "a" (any type), stripped; else the first with level "m",
stripped; else the sentinel "No title". -/
def refTitle (b : XmlNode) : String :=
  match findIn (matchTagAttrs "title" [("level", "a")]) b with
  | some e => trimStr (nodeText e)
  | none =>
      match findIn (matchTagAttrs "title" [("level", "m")]) b with
      | some e => trimStr (nodeText e)
      | none => "No title"

/-- Reference authors (lines 93-98): every author descendant of the
entry, run through parse_author, authors yielding no Person skipped. -/
def refAuthors (b : XmlNode) : List Person :=
  (findAllIn (isTag "author") b).filterMap parse_author

/-- Reference year (lines 101-106): with a first published date
descendant whose "when" attribute is present and non-empty, the part of
that attribute before the first hyphen; absent otherwise. -/
def refYear (b : XmlNode) : Option String :=
  match findIn (matchTagAttrs "date" [("type", "published")]) b with
  | some d =>
      let wh := attrD d "when" ""
      if wh = "" then none else some (beforeFirstHyphen wh)
  | none => none

/-- Reference DOI (lines 109-110). -/
def refDoi (b : XmlNode) : Option String :=
  (findIn (matchTagAttrs "idno" [("type", "DOI")]) b).map nodeText

/-- Reference arXiv id (lines 113-114). -/
def refArxiv (b : XmlNode) : Option String :=
  (findIn (matchTagAttrs "idno" [("type", "arXiv")]) b).map nodeText

/-- Reference venue (lines 117-122): stripped text of the first title
descendant of the entry's first monogr descendant, absent when either
is missing. -/
def refVenue (b : XmlNode) : Option String :=
  match findIn (isTag "monogr") b with
  | some m => (findIn (isTag "title") m).map (fun e => trimStr (nodeText e))
  | none => none

/-- Reference pages (lines 124-133): from the first biblScope
descendant of unit "page", the "from" and "to" attributes defaulted to
the empty string; both non-empty gives from-to, only "from" non-empty
gives it alone, otherwise absent. -/
def refPages (b : XmlNode) : Option String :=
  match findIn (matchTagAttrs "biblScope" [("unit", "page")]) b with
  | some p =>
      let fromPage := attrD p "from" ""
      let toPage := attrD p "to" ""
      if ¬ fromPage = "" ∧ ¬ toPage = "" then some (fromPage ++ "-" ++ toPage)
      else if ¬ fromPage = "" then some fromPage
      else none
  | none => none

/-- Reference volume (lines 136-137): stripped text of the first
biblScope descendant of unit "volume", absent when none exists. -/
def refVolume (b : XmlNode) : Option String :=
  (findIn (matchTagAttrs "biblScope" [("unit", "volume")]) b).map
    (fun e => trimStr (nodeText e))

/-- One reference record for a biblStruct entry (lines 83-145). -/
def parse_ref (b : XmlNode) : Reference :=
  ⟨refTitle b, refAuthors b, refYear b, refDoi b, refArxiv b,
   refVenue b, refPages b, refVolume b, attrD b "xml:id" "",
   none, none, none⟩

/-- All biblStruct elements of the document, in document order
(line 78). -/
def biblStructs (doc : List XmlNode) : List XmlNode :=
  findAllDoc (isTag "biblStruct") doc

/-- The reference-assembly loop (lines 78-147): entries whose "xml:id"
attribute (defaulted to the empty string) does not start with "b" are
skipped, the rest are parsed and appended in order. -/
def refsLoop : List XmlNode → List Reference → List Reference
  | [], acc => acc
  | b :: rest, acc =>
      if ¬ strStartsWith (attrD b "xml:id" "") "b" then refsLoop rest acc
      else refsLoop rest (acc ++ [parse_ref b])

/-- The ordered reference list of a document. -/
def parseReferences (doc : List XmlNode) : List Reference :=
  refsLoop (biblStructs doc) []

/-- The combined result of one extraction (lines 149-152). -/
structure ParseResult where
  main_paper : MainPaper
  references : List Reference
deriving Repr, DecidableEq

/-- Extraction over an already-loaded document tree: the main-paper
record and the ordered reference list. -/
def parse_tree (doc : List XmlNode) : ParseResult :=
  ⟨parse_main doc, parseReferences doc⟩

/-- A token of a serialized XML byte stream: an opening tag with its
attributes, a closing tag, a self-closing tag, or character data. -/
inductive XmlTok where
  | openTag (tag : String) (attrs : List (String × String))
  | closeTag (tag : String)
  | selfTag (tag : String) (attrs : List (String × String))
  | textTok (s : String)
deriving Repr, DecidableEq

/-- The error raised when the input is not well-formed XML. -/
inductive GrobidError where
  | MalformedDocument
deriving Repr, DecidableEq

/-- Well-formedness check of a token stream: every opening tag is
matched, in properly nested order, by a closing tag of the same name,
and no closing tag is unmatched. -/
def balancedAux : List String → List XmlTok → Bool
  | [], [] => true
  | _ :: _, [] => false
  | stack, XmlTok.textTok _ :: r => balancedAux stack r
  | stack, XmlTok.selfTag _ _ :: r => balancedAux stack r
  | stack, XmlTok.openTag t _ :: r => balancedAux (t :: stack) r
  | [], XmlTok.closeTag _ :: _ => false
  | t0 :: st, XmlTok.closeTag t :: r =>
      if t = t0 then balancedAux st r else false

/-- A token stream is well-formed XML when its tags balance. -/
def wellFormedXml (toks : List XmlTok) : Bool := balancedAux [] toks

/-- Stack machine building the document tree from a token stream.  The
stack holds, for each currently open element, its tag, its attributes
and the reversed list of completed earlier siblings; acc holds the
reversed completed nodes at the current depth.  The build fails on any
unmatched or mismatched tag. -/
def buildTree :
    List (String × List (String × String) × List XmlNode) →
    List XmlNode → List XmlTok → Option (List XmlNode)
  | [], acc, [] => some acc.reverse
  | _ :: _, _, [] => none
  | stack, acc, XmlTok.textTok s :: r => buildTree stack (XmlNode.text s :: acc) r
  | stack, acc, XmlTok.selfTag t a :: r =>
      buildTree stack (XmlNode.elem t a [] :: acc) r
  | stack, acc, XmlTok.openTag t a :: r => buildTree ((t, a, acc) :: stack) [] r
  | [], _, XmlTok.closeTag _ :: _ => none
  | (t0, a0, acc0) :: st, acc, XmlTok.closeTag t :: r =>
      if t = t0 then buildTree st (XmlNode.elem t0 a0 acc.reverse :: acc0) r
      else none

/-- Modelled from the spec: the Document Loader.  The source
(reference_parser.py lines 39-40) delegates the XML parse to the
external BeautifulSoup library, whose code is not part of this
repository; per the spec the loader yields a queryable document tree
for well-formed input and fails with MalformedDocument otherwise,
returning nothing else. -/
def loadDocument (toks : List XmlTok) : Except GrobidError (List XmlNode) :=
  match buildTree [] [] toks with
  | some ns => Except.ok ns
  | none => Except.error GrobidError.MalformedDocument

/-- parse_grobid_xml (reference_parser.py lines 36-152): load the
document, then extract the main-paper record and the ordered reference
list; a failed load aborts the extraction with the load error. -/
def parse_grobid_xml (toks : List XmlTok) : Except GrobidError ParseResult :=
  match loadDocument toks with
  | Except.ok doc => Except.ok (parse_tree doc)
  | Except.error e => Except.error e

example :
    buildTree [] [] [XmlTok.openTag "a" [], XmlTok.textTok "x", XmlTok.closeTag "a"]
      = some [XmlNode.elem "a" [] [XmlNode.text "x"]] := rfl

example : wellFormedXml [XmlTok.openTag "a" []] = false := rfl

/-- The reference-entry identifier pattern the specification describes:
a lowercase b followed by (at least one) digit. -/
def bDigitsId (s : String) : Bool :=
  match s.data with
  | 'b' :: rest => ¬ rest.isEmpty && rest.all Char.isDigit
  | _ => false

/-- Splitting of a character list at whitespace runs, accumulating the
current word in reverse; the word list of the specification's
whitespace normalization. -/
def splitWsAux : List Char → List Char → List String
  | [], cur => if cur.isEmpty then [] else [String.mk cur.reverse]
  | c :: rest, cur =>
      if isWs c then
        if cur.isEmpty then splitWsAux rest []
        else String.mk cur.reverse :: splitWsAux rest []
      else splitWsAux rest (c :: cur)

/-- The whitespace normalization the specification describes for the
abstract: runs of whitespace collapsed to a single space and
leading/trailing whitespace stripped.  Stated for comparison with the
source's get_text(strip=True). -/
def specCollapseWs (s : String) : String := joinSep " " (splitWsAux s.data [])

/-- A document whose single biblStruct carries the identifier bx. -/
def c2doc : List XmlNode := [XmlNode.elem "biblStruct" [("xml:id", "bx")] []]

/-- A document with no biblStruct element at all. -/
def c7doc : List XmlNode := [XmlNode.elem "teiHeader" [] [XmlNode.text "h"]]

/-- A published-date element with no "when" attribute but with text
content. -/
def c3dateElem : XmlNode :=
  XmlNode.elem "date" [("type", "published")] [XmlNode.text "2020"]

/-- A document whose only element is a published date without a "when"
attribute. -/
def c3doc : List XmlNode := [c3dateElem]

/-- A published-date element carrying a normalized date. -/
def c3wdateElem : XmlNode :=
  XmlNode.elem "date" [("type", "published"), ("when", "2020-05-01")]
    [XmlNode.text "2020"]

/-- A document holding one dated publication statement. -/
def c3wdoc : List XmlNode := [c3wdateElem]

/-- An author element whose only name part is a whitespace-only
forename. -/
def c4author : XmlNode :=
  XmlNode.elem "author" []
    [XmlNode.elem "persName" []
      [XmlNode.elem "forename" [] [XmlNode.text " "]]]

/-- A document whose main title element holds only whitespace. -/
def c5doc : List XmlNode :=
  [XmlNode.elem "title" [("level", "a"), ("type", "main")] [XmlNode.text " "]]

/-- A reference entry with an untyped article-level title and a
monograph-level title. -/
def c5bibl : XmlNode :=
  XmlNode.elem "biblStruct" [("xml:id", "b0")]
    [XmlNode.elem "title" [("level", "a")] [XmlNode.text "A"],
     XmlNode.elem "title" [("level", "m")] [XmlNode.text "M"]]

/-- A document with a titled header statement. -/
def c5wdoc : List XmlNode :=
  [XmlNode.elem "title" [("level", "a"), ("type", "main")]
    [XmlNode.text " My Paper "]]

/-- A document whose abstract holds a single string with an internal
run of two spaces. -/
def c6doc : List XmlNode :=
  [XmlNode.elem "abstract" [] [XmlNode.text "a  b"]]

/-- A document with a two-paragraph abstract. -/
def c6wdoc : List XmlNode :=
  [XmlNode.elem "abstract" []
    [XmlNode.elem "p" [] [XmlNode.text " Hello "],
     XmlNode.elem "p" [] [XmlNode.text "world "]]]

/-- A reference entry with both page bounds. -/
def c8both : XmlNode :=
  XmlNode.elem "biblStruct" [("xml:id", "b0")]
    [XmlNode.elem "biblScope" [("unit", "page"), ("from", "100"), ("to", "110")] []]

/-- A reference entry with only the starting page. -/
def c8from : XmlNode :=
  XmlNode.elem "biblStruct" [("xml:id", "b1")]
    [XmlNode.elem "biblScope" [("unit", "page"), ("from", "100")] []]

/-- A reference entry whose page-extent element has only the "to"
bound. -/
def c8to : XmlNode :=
  XmlNode.elem "biblStruct" [("xml:id", "b2")]
    [XmlNode.elem "biblScope" [("unit", "page"), ("to", "110")] []]

/-- A document header region holding no identifier element. -/
def c9header : XmlNode := XmlNode.elem "teiHeader" [] [XmlNode.text "h"]

/-- A document whose only DOI identifier sits inside a reference
entry, not in the header. -/
def c9doc : List XmlNode :=
  [c9header,
   XmlNode.elem "biblStruct" [("xml:id", "b0")]
     [XmlNode.elem "idno" [("type", "DOI")] [XmlNode.text "10.1/x"]]]

/-- A document with a DOI and a lowercase-typed identifier. -/
def c9wdoc : List XmlNode :=
  [XmlNode.elem "idno" [("type", "doi")] [XmlNode.text "ignored"],
   XmlNode.elem "idno" [("type", "DOI")] [XmlNode.text "10.5/y"]]

/-- An author element holding free text but no persName descendant. -/
def c10author : XmlNode := XmlNode.elem "author" [] [XmlNode.text "John Doe"]

/-- The tree builder succeeds exactly when the tags of the remaining
token stream balance against the tags of the open-element stack. -/
theorem buildTree_isSome (toks : List XmlTok) :
    ∀ (stack : List (String × List (String × String) × List XmlNode))
      (acc : List XmlNode),
      (buildTree stack acc toks).isSome
        = balancedAux (stack.map (fun p => p.1)) toks := by
  induction toks with
  | nil =>
      intro stack acc
      cases stack <;> simp [buildTree, balancedAux]
  | cons tok r ih =>
      intro stack acc
      cases tok with
      | textTok s => simpa [buildTree, balancedAux] using ih stack _
      | selfTag t a => simpa [buildTree, balancedAux] using ih stack _
      | openTag t a => simpa [buildTree, balancedAux] using ih ((t, a, acc) :: stack) []
      | closeTag t =>
          cases stack with
          | nil => simp [buildTree, balancedAux]
          | cons hd st =>
              obtain ⟨t0, a0, acc0⟩ := hd
              by_cases h : t = t0
              · simpa [buildTree, balancedAux, h] using ih st _
              · simp [buildTree, balancedAux, h]

/-- C1: for every input that is not well-formed XML, parse_grobid_xml
fails with the MalformedDocument error and returns no result object,
not a partial result. -/
theorem c1_malformed_input_aborts (toks : List XmlTok)
    (h : wellFormedXml toks = false) :
    parse_grobid_xml toks = Except.error GrobidError.MalformedDocument ∧
    ∀ res : ParseResult, ¬ parse_grobid_xml toks = Except.ok res := by
  have hb : buildTree [] [] toks = none := by
    have h2 := buildTree_isSome toks [] []
    rw [List.map_nil] at h2
    rw [wellFormedXml] at h
    rw [h] at h2
    simpa using h2
  constructor
  · simp [parse_grobid_xml, loadDocument, hb]
  · intro res
    simp [parse_grobid_xml, loadDocument, hb]

theorem c1_witness :
    wellFormedXml [XmlTok.openTag "TEI" []] = false ∧
    parse_grobid_xml [XmlTok.openTag "TEI" []]
      = Except.error GrobidError.MalformedDocument :=
  ⟨rfl, (c1_malformed_input_aborts [XmlTok.openTag "TEI" []] rfl).1⟩

/-- The reference-assembly loop appends, to its accumulator, exactly
the parses of the entries whose identifier starts with b, in order. -/
theorem refsLoop_eq (items : List XmlNode) :
    ∀ acc, refsLoop items acc
      = acc ++ (items.filter
          (fun b => strStartsWith (attrD b "xml:id" "") "b")).map parse_ref := by
  induction items with
  | nil => intro acc; simp [refsLoop]
  | cons b rest ih =>
      intro acc
      by_cases h : strStartsWith (attrD b "xml:id" "") "b"
      · simp [refsLoop, h, ih, List.filter_cons]
      · simp [refsLoop, h, ih, List.filter_cons]

/-- Mapping the identifier over the accepted entries commutes with
filtering the mapped identifiers. -/
theorem map_gid_filter (l : List XmlNode) :
    ((l.filter (fun b => strStartsWith (attrD b "xml:id" "") "b")).map
        (fun b => attrD b "xml:id" ""))
      = (l.map (fun b => attrD b "xml:id" "")).filter
          (fun s => strStartsWith s "b") := by
  induction l with
  | nil => rfl
  | cons b rest ih =>
      by_cases h : strStartsWith (attrD b "xml:id" "") "b" <;>
        simp [List.filter_cons, h, ih]

/-- C2 (amended): the identifiers of the emitted references are, in
order, exactly the assigned identifiers of the document's biblStruct
entries that start with a lowercase b; digits are not required after
the b, so any identifier starting with b is accepted. -/
theorem c2_amended_b_filter (doc : List XmlNode) :
    (parse_tree doc).references.map Reference.grobid_id
      = ((biblStructs doc).map (fun b => attrD b "xml:id" "")).filter
          (fun s => strStartsWith s "b") := by
  have h1 : (parse_tree doc).references
      = ((biblStructs doc).filter
          (fun b => strStartsWith (attrD b "xml:id" "") "b")).map parse_ref := by
    simpa [parse_tree, parseReferences] using refsLoop_eq (biblStructs doc) []
  rw [h1, List.map_map]
  exact map_gid_filter (biblStructs doc)

/-- C2 counterexample: the entry with identifier bx appears in the
output although bx does not match the pattern of a lowercase b
followed by digits. -/
theorem c2_counterexample :
    (parse_tree c2doc).references.map Reference.grobid_id = ["bx"] ∧
    bDigitsId "bx" = false :=
  ⟨rfl, rfl⟩

/-- C7: the emitted references are exactly the accepted biblStruct
entries in document order, and a document with zero biblStruct
elements yields the empty reference list rather than an error. -/
theorem c7_order_and_empty (doc : List XmlNode) :
    (parse_tree doc).references
      = ((biblStructs doc).filter
          (fun b => strStartsWith (attrD b "xml:id" "") "b")).map parse_ref ∧
    (biblStructs doc = [] → (parse_tree doc).references = []) := by
  constructor
  · simpa [parse_tree, parseReferences] using refsLoop_eq (biblStructs doc) []
  · intro h
    simp [parse_tree, parseReferences, h, refsLoop]

theorem c7_witness : (parse_tree c7doc).references = [] :=
  (c7_order_and_empty c7doc).2 rfl

/-- C3 (amended): the year is derived from the "when" attribute of the
first published-date element found (before the first hyphen), but the
two scopes disagree on absence: the main paper's year is absent only
when no published-date element exists anywhere in the document, and is
the empty string when such an element exists with a missing or empty
"when"; a reference's year is absent when its entry has no
published-date descendant or that descendant's "when" is missing or
empty. -/
theorem c3_amended_year (doc : List XmlNode) (b : XmlNode) :
    (findDoc (matchTagAttrs "date" [("type", "published")]) doc = none →
      (parse_tree doc).main_paper.year = none) ∧
    (∀ d, findDoc (matchTagAttrs "date" [("type", "published")]) doc = some d →
      (parse_tree doc).main_paper.year
        = some (beforeFirstHyphen (attrD d "when" ""))) ∧
    (∀ d, findDoc (matchTagAttrs "date" [("type", "published")]) doc = some d →
      attrD d "when" "" = "" → (parse_tree doc).main_paper.year = some "") ∧
    (findIn (matchTagAttrs "date" [("type", "published")]) b = none →
      refYear b = none) ∧
    (∀ d, findIn (matchTagAttrs "date" [("type", "published")]) b = some d →
      attrD d "when" "" = "" → refYear b = none) ∧
    (∀ d, findIn (matchTagAttrs "date" [("type", "published")]) b = some d →
      ¬ attrD d "when" "" = "" →
      refYear b = some (beforeFirstHyphen (attrD d "when" ""))) := by
  refine ⟨?_, ?_, ?_, ?_, ?_, ?_⟩
  · intro h
    simp [parse_tree, parse_main, mainYear, h]
  · intro d h
    simp [parse_tree, parse_main, mainYear, h]
  · intro d h hw
    simp [parse_tree, parse_main, mainYear, h, hw, beforeFirstHyphen]
  · intro h
    simp [refYear, h]
  · intro d h hw
    simp [refYear, h, hw]
  · intro d h hw
    simp [refYear, h, hw]

/-- C3 counterexample: with the published-date element present but its
"when" attribute missing, the main paper's year is the present empty
string, not absent as the claim requires. -/
theorem c3_counterexample :
    findDoc (matchTagAttrs "date" [("type", "published")]) c3doc
      = some c3dateElem ∧
    attrOf c3dateElem "when" = none ∧
    (parse_tree c3doc).main_paper.year = some "" :=
  ⟨rfl, rfl, rfl⟩

theorem c3_witness :
    (parse_tree c3wdoc).main_paper.year = some "2020" ∧
    refYear (XmlNode.elem "biblStruct" [("xml:id", "b0")] []) = none := by
  constructor
  · have h := (c3_amended_year c3wdoc (XmlNode.elem "biblStruct" [("xml:id", "b0")] [])).2.1
      c3wdateElem rfl
    rw [h]
    rfl
  · exact (c3_amended_year c3wdoc (XmlNode.elem "biblStruct" [("xml:id", "b0")] [])).2.2.2.1 rfl

/-- C4 (amended): an author element contributes a Person exactly when
it has a persName descendant at least one of whose raw forename text
(forename descendants joined by single spaces) and raw surname text is
non-empty; the test uses the raw strings, without trimming, so
whitespace-only name parts are accepted. -/
theorem c4_amended_author_inclusion (a : XmlNode) :
    (parse_author a).isSome
      ↔ ∃ pn, findIn (isTag "persName") a = some pn ∧
          (¬ forenameTextOf pn = "" ∨ ¬ surnameTextOf pn = "") := by
  cases h : findIn (isTag "persName") a with
  | none => simp [parse_author, h]
  | some pn =>
      by_cases h1 : forenameTextOf pn = "" <;>
        by_cases h2 : surnameTextOf pn = "" <;>
          simp [parse_author, h, h1, h2]

/-- C4 counterexample: the author whose forename text is a single space
is included although both name parts are empty after trimming, so the
claimed if-and-only-if with trimmed non-emptiness fails. -/
theorem c4_counterexample :
    parse_author c4author = some ⟨" ", "", ""⟩ ∧
    trimStr " " = "" ∧
    trimStr "" = "" :=
  ⟨rfl, rfl, rfl⟩

/-- C5 (amended): the main-paper title is the trimmed text of the first
title element with level "a" and type "main" anywhere in the document,
with sentinel "Unknown" only when no such element exists; a reference's
title is the trimmed text of its first title descendant with level "a"
regardless of its type attribute, falling back to the first with level
"m" and then to the sentinel "No title"; a trimmed title may be the
empty string. -/
theorem c5_amended_titles (doc : List XmlNode) (b : XmlNode) :
    (findDoc (matchTagAttrs "title" [("level", "a"), ("type", "main")]) doc = none →
      (parse_tree doc).main_paper.title = "Unknown") ∧
    (∀ e, findDoc (matchTagAttrs "title" [("level", "a"), ("type", "main")]) doc
        = some e →
      (parse_tree doc).main_paper.title = trimStr (nodeText e)) ∧
    (∀ e, findIn (matchTagAttrs "title" [("level", "a")]) b = some e →
      refTitle b = trimStr (nodeText e)) ∧
    (findIn (matchTagAttrs "title" [("level", "a")]) b = none →
      ∀ e, findIn (matchTagAttrs "title" [("level", "m")]) b = some e →
        refTitle b = trimStr (nodeText e)) ∧
    (findIn (matchTagAttrs "title" [("level", "a")]) b = none →
      findIn (matchTagAttrs "title" [("level", "m")]) b = none →
        refTitle b = "No title") := by
  refine ⟨?_, ?_, ?_, ?_, ?_⟩
  · intro h
    simp [parse_tree, parse_main, mainTitle, h]
  · intro e h
    simp [parse_tree, parse_main, mainTitle, h]
  · intro e h
    simp [refTitle, h]
  · intro h e h2
    simp [refTitle, h, h2]
  · intro h h2
    simp [refTitle, h, h2]

/-- C5 counterexample: a whitespace-only main title yields the empty
string, not a sentinel, so the title field can be empty; and a
reference with no title tagged as the main title at the article level
takes the untyped article-level title "A" instead of falling back to
the monograph-level title "M". -/
theorem c5_counterexample :
    (parse_tree c5doc).main_paper.title = "" ∧
    findIn (matchTagAttrs "title" [("level", "a"), ("type", "main")]) c5bibl
      = none ∧
    findIn (matchTagAttrs "title" [("level", "m")]) c5bibl
      = some (XmlNode.elem "title" [("level", "m")] [XmlNode.text "M"]) ∧
    refTitle c5bibl = "A" :=
  ⟨rfl, rfl, rfl, rfl⟩

theorem c5_witness :
    (parse_tree c5wdoc).main_paper.title = "My Paper" ∧
    refTitle (XmlNode.elem "biblStruct" [("xml:id", "b0")] []) = "No title" := by
  constructor
  · have h := (c5_amended_titles c5wdoc (XmlNode.elem "biblStruct" [("xml:id", "b0")] [])).2.1
      (XmlNode.elem "title" [("level", "a"), ("type", "main")] [XmlNode.text " My Paper "]) rfl
    rw [h]
    rfl
  · exact (c5_amended_titles c5wdoc
      (XmlNode.elem "biblStruct" [("xml:id", "b0")] [])).2.2.2.2 rfl rfl

/-- C6 (amended): with an abstract container present, the main-paper
abstract is each descendant string stripped of leading and trailing
whitespace, with strings that are empty after stripping skipped, the
rest concatenated with no separator; internal whitespace runs inside a
single string are kept as they are; the field is absent exactly when no
abstract container exists. -/
theorem c6_amended_abstract (doc : List XmlNode) :
    (findDoc (isTag "abstract") doc = none →
      (parse_tree doc).main_paper.abstract = none) ∧
    (∀ e, findDoc (isTag "abstract") doc = some e →
      (parse_tree doc).main_paper.abstract
        = some (joinAll (((elemTexts e).map trimStr).filter
            (fun s => ¬ s = "")))) := by
  constructor
  · intro h
    simp [parse_tree, parse_main, mainAbstract, h]
  · intro e h
    simp [parse_tree, parse_main, mainAbstract, h, getTextStrip]

/-- C6 counterexample: the code keeps the internal double space of the
abstract text, while the claimed normalization collapses it to a single
space, so the two disagree on this document. -/
theorem c6_counterexample :
    (parse_tree c6doc).main_paper.abstract = some "a  b" ∧
    specCollapseWs (joinAll (textsList
      [XmlNode.elem "abstract" [] [XmlNode.text "a  b"]])) = "a b" ∧
    ¬ ("a  b" : String) = "a b" :=
  ⟨rfl, rfl, by decide⟩

theorem c6_witness :
    (parse_tree c6wdoc).main_paper.abstract = some "Helloworld" ∧
    (parse_tree []).main_paper.abstract = none := by
  constructor
  · have h := (c6_amended_abstract c6wdoc).2
      (XmlNode.elem "abstract" []
        [XmlNode.elem "p" [] [XmlNode.text " Hello "],
         XmlNode.elem "p" [] [XmlNode.text "world "]]) rfl
    rw [h]
    rfl
  · exact (c6_amended_abstract []).1 rfl

/-- C8: for a reference entry whose first page-extent biblScope
descendant is e, the pages field is from-to when both the "from" and
"to" attributes are present and non-empty, just from when only "from"
is, and absent otherwise, in particular when only "to" is present. -/
theorem c8_pages_rule (b p : XmlNode)
    (h : findIn (matchTagAttrs "biblScope" [("unit", "page")]) b = some p) :
    (¬ attrD p "from" "" = "" → ¬ attrD p "to" "" = "" →
      (parse_ref b).pages
        = some (attrD p "from" "" ++ "-" ++ attrD p "to" "")) ∧
    (¬ attrD p "from" "" = "" → attrD p "to" "" = "" →
      (parse_ref b).pages = some (attrD p "from" "")) ∧
    (attrD p "from" "" = "" → (parse_ref b).pages = none) := by
  refine ⟨?_, ?_, ?_⟩
  · intro hf ht
    simp [parse_ref, refPages, h, hf, ht]
  · intro hf ht
    simp [parse_ref, refPages, h, hf, ht]
  · intro hf
    simp [parse_ref, refPages, h, hf]

theorem c8_witness :
    (parse_ref c8both).pages = some "100-110" ∧
    (parse_ref c8from).pages = some "100" ∧
    (parse_ref c8to).pages = none := by
  refine ⟨?_, ?_, ?_⟩
  · have h := (c8_pages_rule c8both
      (XmlNode.elem "biblScope" [("unit", "page"), ("from", "100"), ("to", "110")] [])
      rfl).1 (by decide) (by decide)
    rw [h]
    rfl
  · have h := (c8_pages_rule c8from
      (XmlNode.elem "biblScope" [("unit", "page"), ("from", "100")] [])
      rfl).2.1 (by decide) (by decide)
    rw [h]
    rfl
  · exact (c8_pages_rule c8to
      (XmlNode.elem "biblScope" [("unit", "page"), ("to", "110")] [])
      rfl).2.2 (by decide)

/-- C9 (amended): identifier fields take the text of the first idno
element whose "type" attribute equals "DOI" or "arXiv" exactly
(case-sensitive), but the two scopes differ: a reference searches only
its own entry's descendants, while the main paper searches the entire
document, so a matching idno inside a reference entry can supply the
main paper's field; each field is absent exactly when its search scope
holds no matching element. -/
theorem c9_amended_idno (doc : List XmlNode) (b : XmlNode) :
    (findDoc (matchTagAttrs "idno" [("type", "DOI")]) doc = none →
      (parse_tree doc).main_paper.doi = none) ∧
    (∀ e, findDoc (matchTagAttrs "idno" [("type", "DOI")]) doc = some e →
      (parse_tree doc).main_paper.doi = some (nodeText e)) ∧
    (findDoc (matchTagAttrs "idno" [("type", "arXiv")]) doc = none →
      (parse_tree doc).main_paper.arxiv = none) ∧
    (∀ e, findDoc (matchTagAttrs "idno" [("type", "arXiv")]) doc = some e →
      (parse_tree doc).main_paper.arxiv = some (nodeText e)) ∧
    (findIn (matchTagAttrs "idno" [("type", "DOI")]) b = none →
      (parse_ref b).doi = none) ∧
    (∀ e, findIn (matchTagAttrs "idno" [("type", "DOI")]) b = some e →
      (parse_ref b).doi = some (nodeText e)) ∧
    (findIn (matchTagAttrs "idno" [("type", "arXiv")]) b = none →
      (parse_ref b).arxiv = none) ∧
    (∀ e, findIn (matchTagAttrs "idno" [("type", "arXiv")]) b = some e →
      (parse_ref b).arxiv = some (nodeText e)) := by
  refine ⟨?_, ?_, ?_, ?_, ?_, ?_, ?_, ?_⟩
  · intro h
    simp [parse_tree, parse_main, mainDoi, h]
  · intro e h
    simp [parse_tree, parse_main, mainDoi, h]
  · intro h
    simp [parse_tree, parse_main, mainArxiv, h]
  · intro e h
    simp [parse_tree, parse_main, mainArxiv, h]
  · intro h
    simp [parse_ref, refDoi, h]
  · intro e h
    simp [parse_ref, refDoi, h]
  · intro h
    simp [parse_ref, refArxiv, h]
  · intro e h
    simp [parse_ref, refArxiv, h]

/-- C9 counterexample: the main-paper header holds no DOI element, so
under the claim the main paper's DOI is absent; the code takes the DOI
of the first matching element anywhere in the document, here the one
inside the reference entry. -/
theorem c9_counterexample :
    findAllIn (matchTagAttrs "idno" [("type", "DOI")]) c9header = [] ∧
    (parse_tree c9doc).main_paper.doi = some "10.1/x" :=
  ⟨rfl, rfl⟩

theorem c9_witness :
    (parse_tree c9wdoc).main_paper.doi = some "10.5/y" ∧
    (parse_tree c9wdoc).main_paper.arxiv = none := by
  constructor
  · have h := (c9_amended_idno c9wdoc (XmlNode.elem "biblStruct" [] [])).2.1
      (XmlNode.elem "idno" [("type", "DOI")] [XmlNode.text "10.5/y"]) rfl
    rw [h]
    rfl
  · exact (c9_amended_idno c9wdoc (XmlNode.elem "biblStruct" [] [])).2.2.1 rfl

/-- C10: an author element with no persName descendant yields no Person
from parse_author (no error), and contributes nothing to an author list
assembled from author elements, even when it holds other text. -/
theorem c10_no_persname_excluded (a : XmlNode)
    (h : findIn (isTag "persName") a = none) :
    parse_author a = none ∧
    ∀ pre post : List XmlNode,
      (pre ++ a :: post).filterMap parse_author
        = (pre ++ post).filterMap parse_author := by
  have h1 : parse_author a = none := by simp [parse_author, h]
  refine ⟨h1, ?_⟩
  intro pre post
  simp [List.filterMap_append, List.filterMap_cons, h1]

theorem c10_witness :
    parse_author c10author = none ∧
    [c10author].filterMap parse_author = [] := by
  have h := c10_no_persname_excluded c10author rfl
  exact ⟨h.1, by simpa using h.2 [] []⟩
